import Mathlib

/-!
Verification of the js-rsasign sources `src/globals/asn1x509-1.0.js` and
`src/modules/jws-3.3.js` against their natural-language specification.

The two source files are embedded shallowly below.  Collaborator modules that
are not part of the sources (the ASN.1 kernel `asn1-1.0.js`, the crypto engine
`crypto-1.1.js`, `keyutil-1.0.js` and the base64/JSON utilities) are modelled
from the specification, either as small executable functions (DER TLV
encoding) or as oracle parameters bundled in environment structures.
JavaScript strings are modelled as Lean `String` (or `List Char` for the
distinguished-name grammar, where character-level reasoning is needed),
JavaScript numbers as `Int` (all values exercised here are integral), and a
thrown JavaScript exception as `Except.error` carrying the thrown message
(`"TypeError"` for runtime type errors such as a property access on `null`).
-/

/-! ## Hex / DER helpers, modelled from the spec

Modelled from the spec: the "ASN.1 kernel" collaborator (`asn1-1.0.js`, not in
`src/`): each primitive produces canonical DER hex, "all integers, tags, and
lengths follow strict DER (minimal length, no indefinite length)". -/

/-- Hex digit character for a value `0..15`. -/
def hexDigitChar (n : Nat) : Char :=
  if n < 10 then Char.ofNat (48 + n) else Char.ofNat (87 + n)

/-- Two-digit lowercase hex representation of one byte. -/
def byteToHex (n : Nat) : String :=
  String.mk [hexDigitChar (n / 16 % 16), hexDigitChar (n % 16)]

/-- Minimal big-endian byte list of a natural number (empty for `0`). -/
def natToBytes (n : Nat) : List Nat :=
  if h : n = 0 then [] else natToBytes (n / 256) ++ [n % 256]
decreasing_by exact Nat.div_lt_self (Nat.pos_of_ne_zero h) (by omega)

/-- Modelled from the spec: strict DER length octets for a content of `n`
bytes (short form below 128, minimal long form otherwise). -/
def derLenHex (n : Nat) : String :=
  if n < 128 then byteToHex n
  else byteToHex (128 + (natToBytes n).length) ++ String.join ((natToBytes n).map byteToHex)

/-- Modelled from the spec: a DER TLV as hex, from a tag octet (hex) and the
content hex. -/
def derTLV (tag : String) (content : String) : String :=
  tag ++ derLenHex (content.length / 2) ++ content

/-- Modelled from the spec: `DERInteger` for a small non-negative value
(sufficient for the version integer used by `TBSCertificate`). -/
def derIntegerHex (n : Nat) : String :=
  derTLV "02" (byteToHex n)

/-- Modelled from the spec: `DERBitString` from content hex (the caller
prepends the unused-bits octet). -/
def derBitStringHex (content : String) : String :=
  derTLV "03" content

/-- Modelled from the spec: `DERSequence` over already-encoded components. -/
def derSequenceHex (items : List String) : String :=
  derTLV "30" (String.join items)

/-! ## asn1x509-1.0.js: AlgorithmIdentifier, TBSCertificate, TBSCertList,
Certificate, CRL -/

/-- An `AlgorithmIdentifier` object as used by the signing wrappers: its
algorithm name (`nameAlg`) and its DER encoding (computed by code outside
`src/`, carried here as data). -/
structure AlgorithmIdentifier where
  nameAlg : String
  encodedHex : String
deriving DecidableEq

/-- State of a `TBSCertificate` object: every `asn1*` field as the DER hex of
the component object (`none` = JavaScript `null`), extensions as the list of
their DER encodings in insertion order. -/
structure TBSCertificateState where
  asn1SerialNumber : Option String
  asn1SignatureAlg : Option AlgorithmIdentifier
  asn1Issuer : Option String
  asn1NotBefore : Option String
  asn1NotAfter : Option String
  asn1Subject : Option String
  asn1SubjPKey : Option String
  extensionsArray : List String
deriving DecidableEq

/-- The `asn1Version` field set by the `TBSCertificate` constructor:
`new DERTaggedObject({obj: new DERInteger({int: 2})})`, i.e. an explicit
`[0]` tag around INTEGER 2. -/
def tbsVersionHex : String :=
  derTLV "a0" (derIntegerHex 2)

/-- The `this.asn1Array` list built by `TBSCertificate.getEncodedHex` (given
the already-encoded validity SEQUENCE): version, serial, signature algorithm,
issuer, validity, subject, subject public key info, then — only when the
extension list is non-empty — the extension SEQUENCE under an explicit `a3`
tag. -/
def tbsCertificateASN1Array (tbs : TBSCertificateState) (asn1Validity : String) :
    List (Option String) :=
  [some tbsVersionHex,
   tbs.asn1SerialNumber,
   tbs.asn1SignatureAlg.map AlgorithmIdentifier.encodedHex,
   tbs.asn1Issuer,
   some asn1Validity,
   tbs.asn1Subject,
   tbs.asn1SubjPKey] ++
  (if tbs.extensionsArray.length > 0 then
    [some (derTLV "a3" (derSequenceHex tbs.extensionsArray))]
   else [])

/-- Collect a list of optional components; `none` anywhere means a JavaScript
`null` was pushed into the array, so encoding it raises a `TypeError`. -/
def seqOptions : List (Option String) → Option (List String)
  | [] => some []
  | none :: _ => none
  | some h :: t => (seqOptions t).map (h :: ·)

/-- `TBSCertificate.getEncodedHex`: raises when `notBefore`/`notAfter` are
unset, otherwise encodes the field array as a DER SEQUENCE (a remaining
`null` field raises a `TypeError` when the sequence encodes it). -/
def tbsGetEncodedHex (tbs : TBSCertificateState) : Except String String :=
  match tbs.asn1NotBefore, tbs.asn1NotAfter with
  | some nb, some na =>
    let asn1Validity := derSequenceHex [nb, na]
    match seqOptions (tbsCertificateASN1Array tbs asn1Validity) with
    | none => Except.error "TypeError"
    | some hexes => Except.ok (derSequenceHex hexes)
  | _, _ => Except.error "notBefore and/or notAfter not set"

/-- State of a `TBSCertList` object, fields as in the source. -/
structure TBSCertListState where
  asn1Version : Option String
  asn1SignatureAlg : Option AlgorithmIdentifier
  asn1Issuer : Option String
  asn1ThisUpdate : Option String
  asn1NextUpdate : Option String
  aRevokedCert : List String
deriving DecidableEq

/-- The `this.asn1Array` list built by `TBSCertList.getEncodedHex`: optional
version, signature algorithm, issuer, thisUpdate, optional nextUpdate, and
the revoked-certificate SEQUENCE only when entries exist. -/
def tbsCertListASN1Array (tbs : TBSCertListState) : List (Option String) :=
  (match tbs.asn1Version with
   | some v => [some v]
   | none => []) ++
  [tbs.asn1SignatureAlg.map AlgorithmIdentifier.encodedHex,
   tbs.asn1Issuer,
   tbs.asn1ThisUpdate] ++
  (match tbs.asn1NextUpdate with
   | some nu => [some nu]
   | none => []) ++
  (if tbs.aRevokedCert.length > 0 then [some (derSequenceHex tbs.aRevokedCert)] else [])

/-- `TBSCertList.getEncodedHex`. -/
def tbsCertListGetEncodedHex (tbs : TBSCertListState) : Except String String :=
  match seqOptions (tbsCertListASN1Array tbs) with
  | none => Except.error "TypeError"
  | some hexes => Except.ok (derSequenceHex hexes)

/-- Modelled from the spec: the signature engine collaborator
(`Signature(alg).init(key).updateHex(data).sign()` from `crypto-1.1.js`, not
in `src/`), as a total oracle from algorithm name, key and data hex to the
signature hex.  The source's `KJUR.crypto.Signature` / undeclared `sig`
references in the signing wrappers are modelled as resolving to this
engine. -/
structure SigEnv where
  sigSign : String → String → String → String

/-- State of a `Certificate` (or `CRL`) wrapper object.  The `hTLV` and
`isModified` fields come from the `ASN1Object` base class (not in `src/`);
modelled from the spec, an object starts in the *unsigned* state: no `hTLV`,
dirty flag set. -/
structure CertState where
  asn1SignatureAlg : Option AlgorithmIdentifier
  hexSig : Option String
  hTLV : Option String
  isModified : Bool
deriving DecidableEq

/-- Modelled from the spec: initial state of a freshly constructed
`Certificate`/`CRL` object (unsigned: `getEncodedHex` must fail). -/
def certInit : CertState :=
  { asn1SignatureAlg := none, hexSig := none, hTLV := none, isModified := true }

/-- `Certificate.sign`: copies the signature algorithm out of the TBS object
(a `null` algorithm raises when its `nameAlg` is read), signs the TBS
encoding with that algorithm's name, wraps `'00' + hexSig` as a BIT STRING
and assembles `SEQUENCE{tbs, sigAlg, sig}`. -/
def certificateSign (env : SigEnv) (tbs : TBSCertificateState) (prvKey : String) :
    Except String CertState :=
  match tbs.asn1SignatureAlg with
  | none => Except.error "TypeError"
  | some algId =>
    match tbsGetEncodedHex tbs with
    | Except.error e => Except.error e
    | Except.ok tbsHex =>
      let hexSig := env.sigSign algId.nameAlg prvKey tbsHex
      Except.ok
        { asn1SignatureAlg := some algId,
          hexSig := some hexSig,
          hTLV := some (derSequenceHex
            [tbsHex, algId.encodedHex, derBitStringHex ("00" ++ hexSig)]),
          isModified := false }

/-- `Certificate.setSignatureHex`: same assembly with a caller-supplied
signature value and no local signing. -/
def certificateSetSignatureHex (tbs : TBSCertificateState) (sigHex : String) :
    Except String CertState :=
  match tbs.asn1SignatureAlg with
  | none => Except.error "TypeError"
  | some algId =>
    match tbsGetEncodedHex tbs with
    | Except.error e => Except.error e
    | Except.ok tbsHex =>
      Except.ok
        { asn1SignatureAlg := some algId,
          hexSig := some sigHex,
          hTLV := some (derSequenceHex
            [tbsHex, algId.encodedHex, derBitStringHex ("00" ++ sigHex)]),
          isModified := false }

/-- `CRL.sign`: copies the signature algorithm out of the TBS object exactly
like `Certificate.sign`, but invokes the signature engine with the literal
algorithm name `'SHA1withRSA'` regardless of the declared algorithm. -/
def crlSign (env : SigEnv) (tbs : TBSCertListState) (prvKey : String) :
    Except String CertState :=
  match tbsCertListGetEncodedHex tbs with
  | Except.error e => Except.error e
  | Except.ok tbsHex =>
    let hexSig := env.sigSign "SHA1withRSA" prvKey tbsHex
    match tbs.asn1SignatureAlg with
    | none => Except.error "TypeError"
    | some algId =>
      Except.ok
        { asn1SignatureAlg := some algId,
          hexSig := some hexSig,
          hTLV := some (derSequenceHex
            [tbsHex, algId.encodedHex, derBitStringHex ("00" ++ hexSig)]),
          isModified := false }

/-- `Certificate.getEncodedHex` (identical body in `CRL`): returns the cached
`hTLV` when present and clean, otherwise raises `"not signed yet"`. -/
def certificateGetEncodedHex (st : CertState) : Except String String :=
  match st.hTLV with
  | some h => if st.isModified = false then Except.ok h else Except.error "not signed yet"
  | none => Except.error "not signed yet"

/-! ## asn1x509-1.0.js: X500Name oneline / LDAP distinguished-name converters

JavaScript strings appear here as `List Char`; `String.prototype.split` with a
one-character separator is `splitChar`, `Array.prototype.join` is
`joinChar`. -/

/-- `s.split(c)` of JavaScript for a one-character separator. -/
def splitChar (c : Char) : List Char → List (List Char)
  | [] => [[]]
  | x :: xs =>
    if x = c then [] :: splitChar c xs
    else
      match splitChar c xs with
      | [] => [[x]]
      | h :: t => (x :: h) :: t

/-- `a.join(c)` of JavaScript for a one-character separator. -/
def joinChar (c : Char) : List (List Char) → List Char
  | [] => []
  | [e] => e
  | e :: rest => e ++ c :: joinChar c rest

/-- `s.replace(x, "\\" + x)` of JavaScript: insert a backslash before the
first occurrence of `x`. -/
def escapeFirst (x : Char) : List Char → List Char
  | [] => []
  | c :: cs => if c = x then '\\' :: x :: cs else c :: escapeFirst x cs

/-- `s.replace(/\\,/g, ",")` of JavaScript: rewrite every backslash-comma
pair to a comma, scanning left to right. -/
def collapseEscComma : List Char → List Char
  | '\\' :: ',' :: rest => ',' :: collapseEscComma rest
  | c :: rest => c :: collapseEscComma rest
  | [] => []

/-- `X500Name.onelineToLDAP`: requires a leading `/`, splits on `/`,
reverses, escapes the first comma of each part, joins with commas. -/
def onelineToLDAP (s : List Char) : Except String (List Char) :=
  match s with
  | '/' :: rest =>
    let a := (splitChar '/' rest).reverse
    Except.ok (joinChar ',' (a.map (escapeFirst ',')))
  | _ => Except.error "malformed input"

/-- The rejoining loop of `X500Name.ldapToOneline`: when the previous item
ended in a backslash, pop it, rejoin with the comma and collapse `\\,`. -/
def ldapLoop : List (List Char) → List (List Char) → Bool → List (List Char)
  | [], a2, _ => a2
  | item :: rest, a2, isBSbefore =>
    let a2' :=
      if isBSbefore then
        a2.dropLast ++ [collapseEscComma (a2.getLastD [] ++ ',' :: item)]
      else a2 ++ [item]
    ldapLoop rest a2' (decide (item.getLast? = some '\\'))

/-- `X500Name.ldapToOneline`: split on commas, rejoin escaped commas, escape
the first `/` of each part, reverse and join with `/` after a leading `/`. -/
def ldapToOneline (s : List Char) : List Char :=
  let a := splitChar ',' s
  let a2 := ldapLoop a [] false
  let a3 := (a2.map (escapeFirst '/')).reverse
  '/' :: joinChar '/' a3

/-! ## jws-3.3.js: JSON values, keys, environment -/

/-- A JavaScript/JSON value as it occurs in decoded JWS headers, payloads and
accept-field entries. -/
inductive JSVal where
  | null : JSVal
  | bool : Bool → JSVal
  | num : Int → JSVal
  | str : String → JSVal
  | arr : List JSVal → JSVal

/-- Strict equality `===` of JavaScript on `JSVal`s: structural on primitive
values; two object (array) values are reference-compared in JavaScript and
distinct model values are treated as distinct references here. -/
def jsEq : JSVal → JSVal → Bool
  | JSVal.null, JSVal.null => true
  | JSVal.bool a, JSVal.bool b => a == b
  | JSVal.num a, JSVal.num b => a == b
  | JSVal.str a, JSVal.str b => a == b
  | _, _ => false

/-- A decoded JSON object (`Dictionary`). -/
def JObj : Type := List (String × JSVal)

/-- Property read `o[k]` on a JSON object (`none` = `undefined`). -/
def jGet (o : JObj) (k : String) : Option JSVal :=
  (o.find? (fun p => p.1 = k)).map (fun p => p.2)

/-- `typeof` of JavaScript on a `JSVal`. -/
def jsTypeof : JSVal → String
  | JSVal.null => "object"
  | JSVal.bool _ => "boolean"
  | JSVal.num _ => "number"
  | JSVal.str _ => "string"
  | JSVal.arr _ => "object"

/-- A key argument of `verify`/`verifyJWT`: `null`, `undefined`, a string, a
password dictionary, or an opaque `RSAKeyEx`/`ECDSA` object (the numeric tag
distinguishes object identities). -/
inductive JSKey where
  | null : JSKey
  | undef : JSKey
  | str : String → JSKey
  | dict : List (String × JSVal) → JSKey
  | rsa : Nat → JSKey
  | ec : Nat → JSKey

/-- `key === null` of JavaScript. -/
def JSKey.isNull : JSKey → Bool
  | JSKey.null => true
  | _ => false

/-- `key === undefined` of JavaScript. -/
def JSKey.isUndef : JSKey → Bool
  | JSKey.undef => true
  | _ => false

/-- `p.isPrefixOf s` written out on characters. -/
def startsWith : List Char → List Char → Bool
  | _, [] => true
  | [], _ :: _ => false
  | c :: cs, p :: ps => c = p && startsWith cs ps

/-- `s.indexOf(pat) != -1` of JavaScript: contiguous-substring test. -/
def containsSub : List Char → List Char → Bool
  | [], pat => pat.isEmpty
  | s@(_ :: rest), pat => startsWith s pat || containsSub rest pat

/-- Substring test on `String`s. -/
def containsSubStr (s pat : String) : Bool :=
  containsSub s.data pat.data

/-- String conversion used by `Array.prototype.join` for the accept-algorithm
list (all values exercised by the source are strings; the join renders `null`
as an empty string, and nested-array stringification is out of scope). -/
def jsValToString : JSVal → String
  | JSVal.null => ""
  | JSVal.bool true => "true"
  | JSVal.bool false => "false"
  | JSVal.num n => toString n
  | JSVal.str s => s
  | JSVal.arr _ => ""

/-- `a.join(":")` of JavaScript on the accept-algorithm array. -/
def jsJoinColon : List JSVal → String
  | [] => ""
  | [v] => jsValToString v
  | v :: rest => jsValToString v ++ ":" ++ jsJoinColon rest

/-- `inArray(item, a)` from the source: `a.indexOf(item) !== -1`.  Arrays use
element equality, strings use the substring search of
`String.prototype.indexOf`; other receivers have no `indexOf` and raise a
`TypeError`. -/
def inArray (item : JSVal) (a : JSVal) : Except String Bool :=
  match a with
  | JSVal.arr l => Except.ok (l.any (fun x => jsEq x item))
  | JSVal.str s => Except.ok (containsSubStr s (jsValToString item))
  | _ => Except.error "TypeError"

/-- `includedArray(a1, a2)` from the source: every element of `a1` is found
in `a2`. -/
def includedArray (a1 : List JSVal) (a2 : JSVal) : Except String Bool :=
  match a1 with
  | [] => Except.ok true
  | x :: rest =>
    match inArray x a2 with
    | Except.error e => Except.error e
    | Except.ok true => includedArray rest a2
    | Except.ok false => Except.ok false

/-- The `jwsalg2sigalg` table from the source. -/
def jwsalg2sigalg (a : String) : Option String :=
  List.lookup a
    [("HS256", "HmacSHA256"),
     ("HS384", "HmacSHA384"),
     ("HS512", "HmacSHA512"),
     ("RS256", "SHA256withRSA"),
     ("RS384", "SHA384withRSA"),
     ("RS512", "SHA512withRSA"),
     ("ES256", "SHA256withECDSA"),
     ("ES384", "SHA384withECDSA"),
     ("PS256", "SHA256withRSAandMGF1"),
     ("PS384", "SHA384withRSAandMGF1"),
     ("PS512", "SHA512withRSAandMGF1"),
     ("none", "none")]

/-- Modelled from the spec: the collaborators of the JWS layer that are not
in `src/` — `decode` is `readSafeJSONString(b64utoutf8(...))` (`none` for
anything that does not decode to a JSON object, on which a property access
then raises a `TypeError`), `b64utohex` the base64url-to-hex conversion,
`getKey` the PEM-to-key-object parser, `macFinal` the
`Mac({alg, pass}).updateString(...).doFinal()` pipeline, `concatSigToASN1Sig`
the JOSE-to-DER ECDSA signature conversion (which can throw), `sigVerify` the
`Signature({alg}).init(key).updateString(...).verify(sig)` pipeline, and
`now` the value `getNow()` returns during the call. -/
structure JWSEnv where
  decode : String → Option JObj
  b64utohex : String → String
  getKey : String → Except String JSKey
  macFinal : String → JSKey → String → Except String String
  concatSigToASN1Sig : String → Except String String
  sigVerify : String → JSKey → String → String → Except String Bool
  now : Int

instance {ε α : Type} [DecidableEq ε] [DecidableEq α] : DecidableEq (Except ε α) :=
  fun a b =>
    match a, b with
    | Except.ok x, Except.ok y =>
      match decEq x y with
      | isTrue h => isTrue (by rw [h])
      | isFalse h => isFalse (fun hh => h (Except.ok.inj hh))
    | Except.error x, Except.error y =>
      match decEq x y with
      | isTrue h => isTrue (by rw [h])
      | isFalse h => isFalse (fun hh => h (Except.error.inj hh))
    | Except.ok _, Except.error _ => isFalse (fun hh => Except.noConfusion hh)
    | Except.error _, Except.ok _ => isFalse (fun hh => Except.noConfusion hh)

/-- `s.split(sep)` of JavaScript for a one-character separator, on `String`. -/
def jsSplit (sep : Char) (s : String) : List String :=
  (splitChar sep s.data).map String.mk

/-- `s.substr(0, n)` of JavaScript. -/
def jsSubstrTo (s : String) (n : Nat) : String :=
  String.mk (s.data.take n)

/-- `key instanceof RSAKeyEx` of JavaScript. -/
def JSKey.isRsa : JSKey → Bool
  | JSKey.rsa _ => true
  | _ => false

/-- `key instanceof ECDSA` of JavaScript. -/
def JSKey.isEc : JSKey → Bool
  | JSKey.ec _ => true
  | _ => false

/-- `verify(sJWS, key, acceptAlgs)` from `jws-3.3.js`, step by step: a
non-3-segment input returns `false`; a header that is not a JSON object, or
whose `alg` is not a string, raises a `TypeError`; a missing `alg` raises;
a given non-empty accept array raises when the colon-joined accept string
does not contain `":" + alg + ":"`; then the null-key, PEM-conversion and
key-type checks run, the algorithm is mapped through `jwsalg2sigalg`, and
the HMAC / ECDSA / RSA branch produces the boolean result. -/
def verify (env : JWSEnv) (sJWS : String) (key : JSKey) (acceptAlgs : Option JSVal) :
    Except String Bool :=
  match jsSplit '.' sJWS with
  | [uHeader, uPayload, uSigVal] =>
    let uSignatureInput := uHeader ++ "." ++ uPayload
    let hSig := env.b64utohex uSigVal
    match env.decode uHeader with
    | none => Except.error "TypeError"
    | some pHeader =>
      match jGet pHeader "alg" with
      | none => Except.error "algorithm not specified in header"
      | some (JSVal.str alg) =>
        let algType := jsSubstrTo alg 2
        let accStep : Except String Unit :=
          match acceptAlgs with
          | some (JSVal.arr l) =>
            if l.length > 0 then
              let acceptAlgStr := ":" ++ jsJoinColon l ++ ":"
              if containsSubStr acceptAlgStr (":" ++ alg ++ ":") then Except.ok ()
              else
                Except.error
                  ("algorithm " ++ "\x27" ++ alg ++ "\x27" ++ " not accepted in the list")
            else Except.ok ()
          | _ => Except.ok ()
        match accStep with
        | Except.error e => Except.error e
        | Except.ok _ =>
          if alg ≠ "none" ∧ key.isNull = true then
            Except.error "key shall be specified to verify."
          else
            let keyStep : Except String JSKey :=
              match key with
              | JSKey.str s =>
                if containsSubStr s "-----BEGIN " then env.getKey s else Except.ok key
              | _ => Except.ok key
            match keyStep with
            | Except.error e => Except.error e
            | Except.ok key2 =>
              if (algType = "RS" ∨ algType = "PS") ∧ key2.isRsa = false then
                Except.error "key shall be a RSAKeyEx obj for RS* and PS* algs"
              else if algType = "ES" ∧ key2.isEc = false then
                Except.error "key shall be a ECDSA obj for ES* algs"
              else
                match jwsalg2sigalg alg with
                | none => Except.error ("unsupported alg name: " ++ alg)
                | some sigAlg =>
                  if sigAlg = "none" then Except.error "not supported"
                  else if jsSubstrTo sigAlg 4 = "Hmac" then
                    if key2.isUndef = true then
                      Except.error "hexadecimal key shall be specified for HMAC"
                    else
                      match env.macFinal sigAlg key2 uSignatureInput with
                      | Except.error e => Except.error e
                      | Except.ok hSig2 => Except.ok (hSig == hSig2)
                  else if containsSubStr sigAlg "withECDSA" then
                    match env.concatSigToASN1Sig hSig with
                    | Except.error _ => Except.ok false
                    | Except.ok hASN1Sig => env.sigVerify sigAlg key2 uSignatureInput hASN1Sig
                  else env.sigVerify sigAlg key2 uSignatureInput hSig
      | some _ => Except.error "TypeError"
  | _ => Except.ok false

/-- The `acceptField` dictionary of `verifyJWT`, restricted to the keys the
source reads (`none` = key absent). -/
structure AcceptField where
  alg : Option JSVal
  iss : Option JSVal
  sub : Option JSVal
  aud : Option JSVal
  jti : Option JSVal
  verifyAt : Option JSVal
  gracePeriod : Option JSVal

/-- Step 4 of `verifyJWT` (header `alg` check): missing header `alg` returns
`false`; missing `acceptField.alg` raises; otherwise membership via
`inArray`. -/
def algCheck (pHeader : JObj) (af : AcceptField) : Except String Bool :=
  match jGet pHeader "alg" with
  | none => Except.ok false
  | some algv =>
    match af.alg with
    | none => Except.error "acceptField.alg shall be specified"
    | some aalg => inArray algv aalg

/-- Step 5 of `verifyJWT` (`iss` check): applies only when the payload has
`iss` and `acceptField.iss` has `typeof === "object"`. -/
def issCheck (pPayload : JObj) (af : AcceptField) : Except String Bool :=
  match jGet pPayload "iss", af.iss with
  | some v, some a => if jsTypeof a = "object" then inArray v a else Except.ok true
  | _, _ => Except.ok true

/-- Step 6 of `verifyJWT` (`sub` check). -/
def subCheck (pPayload : JObj) (af : AcceptField) : Except String Bool :=
  match jGet pPayload "sub", af.sub with
  | some v, some a => if jsTypeof a = "object" then inArray v a else Except.ok true
  | _, _ => Except.ok true

/-- Step 7 of `verifyJWT` (`aud` check): a string audience is a membership
check, an array audience a subset check (a `null` audience has
`typeof === "object"` and raises when its length is read). -/
def audCheck (pPayload : JObj) (af : AcceptField) : Except String Bool :=
  match jGet pPayload "aud", af.aud with
  | some v, some a =>
    if jsTypeof a = "object" then
      if jsTypeof v = "string" then inArray v a
      else if jsTypeof v = "object" then
        match v with
        | JSVal.arr l => includedArray l a
        | _ => Except.error "TypeError"
      else Except.ok true
    else Except.ok true
  | _, _ => Except.ok true

/-- The verification time of step 8: `acceptField.verifyAt` when present and
numeric, else `getNow()`. -/
def jwtNow (env : JWSEnv) (af : AcceptField) : Int :=
  match af.verifyAt with
  | some (JSVal.num v) => v
  | _ => env.now

/-- The `gracePeriod` write of step 8: when absent or non-numeric, the source
assigns `acceptField['gracePeriod'] = 0` in the caller's dictionary. -/
def jwtGraceUpdate (af : AcceptField) : AcceptField :=
  match af.gracePeriod with
  | some (JSVal.num _) => af
  | _ => { af with gracePeriod := some (JSVal.num 0) }

/-- The grace period the time checks read (after the step-8 write). -/
def jwtGrace (af : AcceptField) : Int :=
  match (jwtGraceUpdate af).gracePeriod with
  | some (JSVal.num g) => g
  | _ => 0

/-- Step 8.1 (`exp`): applies only to a present numeric `exp`; passes iff
`exp + gracePeriod < now` is false. -/
def expCheck (pPayload : JObj) (grace now : Int) : Bool :=
  match jGet pPayload "exp" with
  | some (JSVal.num e) => if e + grace < now then false else true
  | _ => true

/-- Step 8.2 (`nbf`): passes iff `now < nbf - gracePeriod` is false. -/
def nbfCheck (pPayload : JObj) (grace now : Int) : Bool :=
  match jGet pPayload "nbf" with
  | some (JSVal.num n) => if now < n - grace then false else true
  | _ => true

/-- Step 8.3 (`iat`): passes iff `now < iat - gracePeriod` is false. -/
def iatCheck (pPayload : JObj) (grace now : Int) : Bool :=
  match jGet pPayload "iat" with
  | some (JSVal.num n) => if now < n - grace then false else true
  | _ => true

/-- Step 9 (`jti`): applies only when both sides are present; passes iff they
are strictly equal. -/
def jtiCheck (pPayload : JObj) (af : AcceptField) : Bool :=
  match jGet pPayload "jti", af.jti with
  | some v, some j => jsEq v j
  | _, _ => true

/-- `verifyJWT(sJWT, key, acceptField)` from `jws-3.3.js`.  The result pairs
the returned/raised value with the final state of the caller's `acceptField`
dictionary (the source mutates `gracePeriod` in place in step 8).  A token
with fewer than three segments hands `undefined` to the base64 decoders and
is modelled as raising; with three or more, segments beyond the third are
ignored here and rejected by `verify` in step 10. -/
def verifyJWT (env : JWSEnv) (sJWT : String) (key : JSKey) (acceptField : AcceptField) :
    Except String Bool × AcceptField :=
  match jsSplit '.' sJWT with
  | uHeader :: uPayload :: _ :: _ =>
    match env.decode uHeader with
    | none => (Except.error "TypeError", acceptField)
    | some pHeader =>
      match algCheck pHeader acceptField with
      | Except.error e => (Except.error e, acceptField)
      | Except.ok false => (Except.ok false, acceptField)
      | Except.ok true =>
        match env.decode uPayload with
        | none => (Except.error "TypeError", acceptField)
        | some pPayload =>
          match issCheck pPayload acceptField with
          | Except.error e => (Except.error e, acceptField)
          | Except.ok false => (Except.ok false, acceptField)
          | Except.ok true =>
            match subCheck pPayload acceptField with
            | Except.error e => (Except.error e, acceptField)
            | Except.ok false => (Except.ok false, acceptField)
            | Except.ok true =>
              match audCheck pPayload acceptField with
              | Except.error e => (Except.error e, acceptField)
              | Except.ok false => (Except.ok false, acceptField)
              | Except.ok true =>
                let now := jwtNow env acceptField
                let af2 := jwtGraceUpdate acceptField
                let grace := jwtGrace acceptField
                if expCheck pPayload grace now = false then (Except.ok false, af2)
                else if nbfCheck pPayload grace now = false then (Except.ok false, af2)
                else if iatCheck pPayload grace now = false then (Except.ok false, af2)
                else if jtiCheck pPayload acceptField = false then (Except.ok false, af2)
                else
                  match verify env sJWT key af2.alg with
                  | Except.error e => (Except.error e, af2)
                  | Except.ok false => (Except.ok false, af2)
                  | Except.ok true => (Except.ok true, af2)
  | _ => (Except.error "TypeError", acceptField)
/-! ## Helper lemmas -/

theorem startsWith_iff (p : List Char) : ∀ (s : List Char),
    startsWith s p = true ↔ ∃ t, s = p ++ t := by
  induction p with
  | nil => intro s; simp [startsWith]
  | cons c cs ih =>
    intro s
    cases s with
    | nil => simp [startsWith]
    | cons a as =>
      simp only [startsWith, Bool.and_eq_true, decide_eq_true_eq, ih]
      constructor
      · rintro ⟨rfl, t, rfl⟩
        exact ⟨t, rfl⟩
      · rintro ⟨t, h⟩
        injection h with h1 h2
        exact ⟨h1, t, h2⟩

theorem containsSub_iff (p : List Char) : ∀ (s : List Char),
    containsSub s p = true ↔ ∃ u v, s = u ++ p ++ v := by
  intro s
  induction s with
  | nil =>
    simp only [containsSub, List.isEmpty_iff]
    constructor
    · rintro rfl
      exact ⟨[], [], rfl⟩
    · rintro ⟨u, v, h⟩
      rcases List.append_eq_nil.mp h.symm with ⟨h1, h2⟩
      exact (List.append_eq_nil.mp h1).2
  | cons a as ih =>
    simp only [containsSub, Bool.or_eq_true, startsWith_iff, ih]
    constructor
    · rintro (⟨t, ht⟩ | ⟨u, v, rfl⟩)
      · exact ⟨[], t, by simpa using ht⟩
      · exact ⟨a :: u, v, rfl⟩
    · rintro ⟨u, v, h⟩
      cases u with
      | nil => exact Or.inl ⟨v, by simpa using h⟩
      | cons x xs =>
        injection h with h1 h2
        exact Or.inr ⟨xs, v, h2⟩

theorem colonfree_append_eq : ∀ (a b v w : List Char), ':' ∉ a → ':' ∉ b →
    a ++ ':' :: v = b ++ ':' :: w → a = b ∧ v = w := by
  intro a
  induction a with
  | nil =>
    intro b v w _ hb h
    cases b with
    | nil => simpa using h
    | cons y ys =>
      exfalso
      injection h with h1 h2
      exact hb (h1 ▸ List.mem_cons_self y ys)
  | cons x xs ih =>
    intro b v w ha hb h
    cases b with
    | nil =>
      exfalso
      injection h with h1 h2
      exact ha (h1 ▸ List.mem_cons_self x xs)
    | cons y ys =>
      injection h with h1 h2
      obtain ⟨h3, h4⟩ := ih ys v w (fun hm => ha (List.mem_cons_of_mem x hm))
        (fun hm => hb (List.mem_cons_of_mem y hm)) h2
      exact ⟨by rw [h1, h3], h4⟩


theorem colon_occ_mem : ∀ (entries : List (List Char)) (alg u v : List Char),
    (∀ e ∈ entries, ':' ∉ e) → ':' ∉ alg → entries ≠ [] →
    [':'] ++ joinChar ':' entries ++ [':'] = u ++ ([':'] ++ alg ++ [':']) ++ v →
    alg ∈ entries := by
  intro entries
  induction entries with
  | nil => intro alg u v _ _ hne _; exact absurd rfl hne
  | cons e rest ih =>
    intro alg u v hent halg _ hocc
    have he : ':' ∉ e := hent e (List.mem_cons_self e rest)
    cases rest with
    | nil =>
      have hocc' : ':' :: (e ++ [':']) = u ++ (':' :: (alg ++ ':' :: v)) := by
        simpa [joinChar, List.append_assoc] using hocc
      cases u with
      | nil =>
        have h2 : alg ++ ':' :: v = e ++ ':' :: ([] : List Char) := by
          simpa using hocc'.symm
        obtain ⟨h3, _⟩ := colonfree_append_eq alg e v [] halg he h2
        rw [h3]
        exact List.mem_cons_self e []
      | cons x u1 =>
        exfalso
        simp only [List.cons_append] at hocc'
        injection hocc' with h1 h2
        have hcount := congrArg (fun l => l.count ':') h2
        simp [List.count_append, List.count_cons,
          List.count_eq_zero_of_not_mem he, List.count_eq_zero_of_not_mem halg] at hcount
        omega
    | cons e2 rest2 =>
      have hocc2 : ':' :: (e ++ ':' :: (joinChar ':' (e2 :: rest2) ++ [':']))
          = u ++ (':' :: (alg ++ ':' :: v)) := by
        have hjoin : joinChar ':' (e :: e2 :: rest2)
            = e ++ ':' :: joinChar ':' (e2 :: rest2) := rfl
        simpa [hjoin, List.append_assoc] using hocc
      cases u with
      | nil =>
        have h3 : e ++ ':' :: (joinChar ':' (e2 :: rest2) ++ [':'])
            = alg ++ ':' :: v := by
          simpa using hocc2
        obtain ⟨h4, _⟩ := colonfree_append_eq e alg _ _ he halg h3
        rw [← h4]
        exact List.mem_cons_self e (e2 :: rest2)
      | cons x u1 =>
        simp only [List.cons_append] at hocc2
        injection hocc2 with h1 h2
        have h2' : u1 ++ (':' :: (alg ++ ':' :: v))
            = e ++ (':' :: (joinChar ':' (e2 :: rest2) ++ [':'])) := h2.symm
        rcases List.append_eq_append_iff.mp h2' with ⟨w, hw1, hw2⟩ | ⟨w, hw1, hw2⟩
        · -- e = u1 ++ w and w ++ (':' :: (alg ++ ':' :: v)) = ':' :: (J ++ [':'])
          cases w with
          | nil =>
            have h5 : [':'] ++ joinChar ':' (e2 :: rest2) ++ [':']
                = [] ++ ([':'] ++ alg ++ [':']) ++ v := by
              simpa [List.append_assoc] using hw2.symm
            exact List.mem_cons_of_mem e
              (ih alg [] v (fun z hz => hent z (List.mem_cons_of_mem e hz)) halg
                (by simp) h5)
          | cons y t =>
            exfalso
            simp only [List.cons_append] at hw2
            injection hw2 with h6 h7
            have : y ∈ e := hw1 ▸ List.mem_append_right u1 (List.mem_cons_self y t)
            exact he (h6 ▸ this)
        · -- u1 = e ++ w and ':' :: (alg ++ ':' :: v) = w ++ (':' :: (J ++ [':']))
          -- wait: append_eq_append_iff second disjunct gives
          -- u1 = e ++ w ∧ ':' :: (J ++ [':']) = w ++ (':' :: (alg ++ ':' :: v))
          have h5 : [':'] ++ joinChar ':' (e2 :: rest2) ++ [':']
              = w ++ ([':'] ++ alg ++ [':']) ++ v := by
            simpa [List.append_assoc] using hw2
          exact List.mem_cons_of_mem e
            (ih alg w v (fun z hz => hent z (List.mem_cons_of_mem e hz)) halg
              (by simp) h5)

theorem jsJoinColon_data : ∀ (l : List String),
    (jsJoinColon (l.map JSVal.str)).data = joinChar ':' (l.map String.data) := by
  intro l
  induction l with
  | nil => rfl
  | cons a rest ih =>
    cases rest with
    | nil => rfl
    | cons b rest2 =>
      have hstep : jsJoinColon ((a :: b :: rest2).map JSVal.str)
          = jsValToString (JSVal.str a) ++ ":" ++ jsJoinColon ((b :: rest2).map JSVal.str) := rfl
      have hj : joinChar ':' ((a :: b :: rest2).map String.data)
          = a.data ++ ':' :: joinChar ':' ((b :: rest2).map String.data) := rfl
      rw [hstep, hj]
      simp only [String.data_append, jsValToString, List.append_assoc]
      simpa using ih

theorem acceptAlgStr_not_contains {alg : String} {l : List String}
    (halg : ':' ∉ alg.data) (hl : ∀ e ∈ l, ':' ∉ e.data) (hne : l ≠ [])
    (hmem : alg ∉ l) :
    containsSubStr (":" ++ jsJoinColon (l.map JSVal.str) ++ ":") (":" ++ alg ++ ":") = false := by
  rw [containsSubStr]
  by_contra hcon
  have htrue : containsSub (":" ++ jsJoinColon (l.map JSVal.str) ++ ":").data
      (":" ++ alg ++ ":").data = true := by
    cases hb : containsSub (":" ++ jsJoinColon (l.map JSVal.str) ++ ":").data
        (":" ++ alg ++ ":").data
    · exact absurd hb hcon
    · rfl
  obtain ⟨u, v, hocc⟩ := (containsSub_iff _ _).mp htrue
  have hcolon : (":" : String).data = [':'] := rfl
  have hdata1 : (":" ++ jsJoinColon (l.map JSVal.str) ++ ":").data
      = [':'] ++ joinChar ':' (l.map String.data) ++ [':'] := by
    simp [String.data_append, jsJoinColon_data, hcolon]
  have hdata2 : (":" ++ alg ++ ":").data = [':'] ++ alg.data ++ [':'] := by
    simp [String.data_append, hcolon]
  rw [hdata1, hdata2] at hocc
  have hmem2 := colon_occ_mem (l.map String.data) alg.data u v
    (by
      intro e he
      obtain ⟨x, hx, rfl⟩ := List.mem_map.mp he
      exact hl x hx)
    halg (by simpa using hne) hocc
  obtain ⟨x, hx, hxd⟩ := List.mem_map.mp hmem2
  exact hmem (String.ext hxd ▸ hx)

theorem escapeFirst_eq_self {x : Char} : ∀ {s : List Char}, x ∉ s → escapeFirst x s = s := by
  intro s
  induction s with
  | nil => intro _; rfl
  | cons c cs ih =>
    intro h
    have hcx : ¬ c = x := fun hc => h (hc ▸ List.mem_cons_self c cs)
    simp [escapeFirst, hcx, ih (fun hm => h (List.mem_cons_of_mem c hm))]

theorem map_escapeFirst_id {x : Char} {ls : List (List Char)} (h : ∀ l ∈ ls, x ∉ l) :
    ls.map (escapeFirst x) = ls := by
  induction ls with
  | nil => rfl
  | cons a rest ih =>
    simp [escapeFirst_eq_self (h a (List.mem_cons_self a rest)),
      ih (fun l hl => h l (List.mem_cons_of_mem a hl))]

theorem splitChar_ne_nil (c : Char) : ∀ (s : List Char), splitChar c s ≠ [] := by
  intro s
  induction s with
  | nil => simp [splitChar]
  | cons a as ih =>
    by_cases hac : a = c
    · simp [splitChar, hac]
    · simp only [splitChar, if_neg hac]
      cases hs : splitChar c as with
      | nil => simp
      | cons h t => simp

theorem joinChar_cons (c : Char) (e : List Char) {r : List (List Char)} (hr : r ≠ []) :
    joinChar c (e :: r) = e ++ c :: joinChar c r := by
  cases r with
  | nil => exact absurd rfl hr
  | cons f t => rfl

theorem joinChar_splitChar (c : Char) : ∀ (s : List Char), joinChar c (splitChar c s) = s := by
  intro s
  induction s with
  | nil => rfl
  | cons a as ih =>
    by_cases hac : a = c
    · subst hac
      rw [show splitChar a (a :: as) = [] :: splitChar a as by simp [splitChar]]
      rw [joinChar_cons a [] (splitChar_ne_nil a as)]
      simp [ih]
    · simp only [splitChar, if_neg hac]
      cases hs : splitChar c as with
      | nil => exact absurd hs (splitChar_ne_nil c as)
      | cons h t =>
        cases t with
        | nil =>
          have : joinChar c [h] = h := rfl
          simp only [joinChar]
          rw [← ih, hs]
          rfl
        | cons h2 t2 =>
          rw [joinChar_cons c (a :: h) (by simp)]
          rw [← ih, hs, joinChar_cons c h (by simp)]
          rfl

theorem splitChar_not_mem {c : Char} : ∀ {e : List Char}, c ∉ e → splitChar c e = [e] := by
  intro e
  induction e with
  | nil => intro _; rfl
  | cons a as ih =>
    intro h
    have hac : ¬ a = c := fun hc => h (hc ▸ List.mem_cons_self a as)
    simp only [splitChar, if_neg hac, ih (fun hm => h (List.mem_cons_of_mem a hm))]

theorem splitChar_append_cons {c : Char} : ∀ {e : List Char}, c ∉ e → ∀ (s : List Char),
    splitChar c (e ++ c :: s) = e :: splitChar c s := by
  intro e
  induction e with
  | nil =>
    intro _ s
    simp [splitChar]
  | cons a as ih =>
    intro h s
    have hac : ¬ a = c := fun hc => h (hc ▸ List.mem_cons_self a as)
    rw [List.cons_append]
    simp only [splitChar, if_neg hac, ih (fun hm => h (List.mem_cons_of_mem a hm)) s]

theorem splitChar_joinChar (c : Char) : ∀ (ls : List (List Char)),
    (∀ l ∈ ls, c ∉ l) → ls ≠ [] → splitChar c (joinChar c ls) = ls := by
  intro ls
  induction ls with
  | nil => intro _ hne; exact absurd rfl hne
  | cons e rest ih =>
    intro h _
    cases rest with
    | nil => exact splitChar_not_mem (h e (List.mem_cons_self e []))
    | cons e2 rest2 =>
      rw [joinChar_cons c e (by simp)]
      rw [splitChar_append_cons (h e (List.mem_cons_self e _)) _]
      rw [ih (fun l hl => h l (List.mem_cons_of_mem e hl)) (by simp)]

theorem ldapLoop_no_bs : ∀ (items a2 : List (List Char)),
    (∀ i ∈ items, i.getLast? ≠ some '\\') → ldapLoop items a2 false = a2 ++ items := by
  intro items
  induction items with
  | nil => intro a2 _; simp [ldapLoop]
  | cons i rest ih =>
    intro a2 h
    have hbs : decide (i.getLast? = some '\\') = false :=
      decide_eq_false (h i (List.mem_cons_self i rest))
    simp only [ldapLoop, hbs]
    rw [if_neg (by simp)]
    rw [ih (a2 ++ [i]) (fun j hj => h j (List.mem_cons_of_mem i hj))]
    simp

theorem jwtGraceUpdate_alg (af : AcceptField) : (jwtGraceUpdate af).alg = af.alg := by
  unfold jwtGraceUpdate
  cases hg : af.gracePeriod with
  | none => rfl
  | some v => cases v <;> rfl

theorem skip_time_check (pl : JObj) (k : String) (g n : Int)
    (hv : ∀ v, jGet pl k = some v → ∀ m : Int, v ≠ JSVal.num m) :
    (match jGet pl k with
     | some (JSVal.num e) => if e + g < n then false else true
     | _ => true) = true := by
  cases hk : jGet pl k with
  | none => rfl
  | some v => cases v with
    | num m => exact absurd rfl (hv _ hk m)
    | null => rfl
    | bool b => rfl
    | str s => rfl
    | arr l => rfl


/-- The one write of step 8 of `verifyJWT` never touches another key: for
every call, the final `acceptField` is either untouched or differs exactly in
`gracePeriod` being set to the number `0`. -/
theorem verifyJWT_acceptField_cases (env2 : JWSEnv) (t2 : String) (k2 : JSKey)
    (af2 : AcceptField) :
    (verifyJWT env2 t2 k2 af2).2 = af2 ∨
    (verifyJWT env2 t2 k2 af2).2 = { af2 with gracePeriod := some (JSVal.num 0) } := by
  have hbase : (verifyJWT env2 t2 k2 af2).2 = af2 ∨
      (verifyJWT env2 t2 k2 af2).2 = jwtGraceUpdate af2 := by
    simp only [verifyJWT]
    repeat' split
    all_goals first
      | exact Or.inl rfl
      | exact Or.inr rfl
  rcases hbase with hb | hb
  · exact Or.inl hb
  · unfold jwtGraceUpdate at hb
    cases hg : af2.gracePeriod with
    | none =>
      rw [hg] at hb
      exact Or.inr hb
    | some v =>
      rw [hg] at hb
      cases v with
      | num m =>
        refine Or.inl (hb.trans ?h)
        cases af2
        simp_all
      | null => exact Or.inr hb
      | bool b => exact Or.inr hb
      | str s => exact Or.inr hb
      | arr l => exact Or.inr hb

/-! ## Concrete fixtures for witnesses and counterexamples -/

/-- A concrete JWS environment: the token `"H.P.S"` carries an `HS256`
header and the payload `{exp: 90}`; `"H0"` decodes to a header with no
`alg`; `"P9"` to a payload whose `exp`/`nbf`/`iat` are strings; the MAC
engine agrees with the signature segment, and the clock reads `100`. -/
def testEnv : JWSEnv :=
  { decode := fun s =>
      if s = "H" then some [("alg", JSVal.str "HS256")]
      else if s = "H0" then some []
      else if s = "P" then some [("exp", JSVal.num 90)]
      else if s = "P9" then
        some [("exp", JSVal.str "90"), ("nbf", JSVal.str "x"), ("iat", JSVal.str "y")]
      else none,
    b64utohex := fun s => s,
    getKey := fun _ => Except.ok JSKey.undef,
    macFinal := fun _ _ _ => Except.ok "S",
    concatSigToASN1Sig := fun s => Except.ok s,
    sigVerify := fun _ _ _ _ => Except.ok true,
    now := 100 }

/-- An accept field that accepts `HS256`, verifies at time `100`, and leaves
`gracePeriod` unset. -/
def afAccept : AcceptField :=
  { alg := some (JSVal.arr [JSVal.str "HS256"]), iss := none, sub := none, aud := none,
    jti := none, verifyAt := some (JSVal.num 100), gracePeriod := none }

/-- An entirely empty accept field. -/
def afEmpty : AcceptField :=
  { alg := none, iss := none, sub := none, aud := none, jti := none,
    verifyAt := none, gracePeriod := none }

/-- A signature engine that records which algorithm name it was invoked
with, by returning it as the signature. -/
def sigEnvX : SigEnv := { sigSign := fun alg _ _ => alg }

/-- A SHA-256-with-RSA algorithm identifier object. -/
def algIdX : AlgorithmIdentifier :=
  { nameAlg := "SHA256withRSA", encodedHex := "300d06092a864886f70d01010b0500" }

/-- A notBefore time (UTCTime `130508235959Z`) as DER hex. -/
def nbX : String := "170d3133303530383233353935395a"

/-- A notAfter time (UTCTime `140508235959Z`) as DER hex. -/
def naX : String := "170d3134303530383233353935395a"

/-- A fully populated `TBSCertificate` with no extensions. -/
def tbsX : TBSCertificateState :=
  { asn1SerialNumber := some "020104", asn1SignatureAlg := some algIdX,
    asn1Issuer := some "3100", asn1NotBefore := some nbX, asn1NotAfter := some naX,
    asn1Subject := some "3102", asn1SubjPKey := some "3000", extensionsArray := [] }

/-- The expected encoding of `tbsX`. -/
def tbsXHex : String :=
  derSequenceHex [tbsVersionHex, "020104", algIdX.encodedHex, "3100",
    derSequenceHex [nbX, naX], "3102", "3000"]

/-- A populated `TBSCertList` declaring `SHA256withRSA` as its signature
algorithm. -/
def tbslX : TBSCertListState :=
  { asn1Version := none, asn1SignatureAlg := some algIdX, asn1Issuer := some "3100",
    asn1ThisUpdate := some nbX, asn1NextUpdate := none, aRevokedCert := [] }

/-- The expected encoding of `tbslX`. -/
def tbslXHex : String :=
  derSequenceHex [algIdX.encodedHex, "3100", nbX]

/-! ## Claims -/

/-- C1 (counterexample): the accepted-algorithms check joins the accept list
with colons and tests `":" + alg + ":"` as a substring, so with the single
accept entry `"HS256:RS256"` — a non-empty list that does not contain the
header algorithm `"HS256"` — `verify` does not raise: it proceeds to the
HMAC comparison and returns a boolean (`true` here). -/
theorem c1_counterexample :
    ("HS256" : String) ∉ ["HS256:RS256"] ∧
    (["HS256:RS256"] : List String) ≠ [] ∧
    (jsSplit '.' "H.P.S").length = 3 ∧
    testEnv.decode "H" = some [("alg", JSVal.str "HS256")] ∧
    verify testEnv "H.P.S" (JSKey.str "6161")
      (some (JSVal.arr (["HS256:RS256"].map JSVal.str))) = Except.ok true :=
  ⟨by decide, by decide, by decide, rfl, rfl⟩

/-- C1 (amended): for every three-segment JWS whose decoded header carries a
string algorithm, and every non-empty accepted-algorithms array of strings
that does not contain it, `verify` raises the not-accepted error — provided
neither the header algorithm nor any accepted entry contains a `:`
character (otherwise the colon-joined membership test of the source can
accept an algorithm that is not in the list). -/
theorem c1_not_accepted_amended (env : JWSEnv) (sJWS h p s alg : String) (hdr : JObj)
    (key : JSKey) (l : List String)
    (hsplit : jsSplit '.' sJWS = [h, p, s])
    (hhdr : env.decode h = some hdr)
    (halg : jGet hdr "alg" = some (JSVal.str alg))
    (hcalg : ':' ∉ alg.data)
    (hcl : ∀ e ∈ l, ':' ∉ e.data)
    (hne : l ≠ [])
    (hmem : alg ∉ l) :
    verify env sJWS key (some (JSVal.arr (l.map JSVal.str)))
      = Except.error ("algorithm " ++ "\x27" ++ alg ++ "\x27" ++ " not accepted in the list") := by
  have hlen : (l.map JSVal.str).length > 0 := by
    cases l
    · exact absurd rfl hne
    · simp
  have hsub := acceptAlgStr_not_contains hcalg hcl hne hmem
  have hlen2 : 0 < l.length := List.length_pos.mpr hne
  simp only [verify, hsplit, hhdr, halg]
  simp [hlen, hsub, hlen2]

/-- C1 (witness): verifying the `HS256` token against `acceptAlgs =
["RS256"]` raises the not-accepted error. -/
theorem c1_witness :
    verify testEnv "H.P.S" (JSKey.str "6161") (some (JSVal.arr (["RS256"].map JSVal.str)))
      = Except.error ("algorithm " ++ "\x27" ++ "HS256" ++ "\x27" ++ " not accepted in the list") :=
  c1_not_accepted_amended testEnv "H.P.S" "H" "P" "S" "HS256" [("alg", JSVal.str "HS256")]
    (JSKey.str "6161") ["RS256"] rfl rfl rfl (by decide) (by decide) (by decide) (by decide)

/-- C2 (counterexample): `"ab"` is not in three-segment form, yet `verify`
returns the boolean `false` instead of raising. -/
theorem c2_counterexample :
    (jsSplit '.' "ab").length ≠ 3 ∧
    verify testEnv "ab" (JSKey.str "6161") none = Except.ok false :=
  ⟨by decide, rfl⟩

/-- C2 (amended): for every input string that does not split on `.` into
exactly three segments, `verify` returns the boolean `false` (it does not
raise); the raising behaviour for malformed input belongs to `parseJWS`,
not to `verify`. -/
theorem c2_malformed_returns_false (env : JWSEnv) (sJWS : String) (key : JSKey)
    (aa : Option JSVal)
    (hlen : (jsSplit '.' sJWS).length ≠ 3) :
    verify env sJWS key aa = Except.ok false := by
  cases hs : jsSplit '.' sJWS with
  | nil => simp [verify, hs]
  | cons a t1 =>
    cases t1 with
    | nil => simp [verify, hs]
    | cons b t2 =>
      cases t2 with
      | nil => simp [verify, hs]
      | cons c t3 =>
        cases t3 with
        | nil => exact absurd (by rw [hs]; rfl) hlen
        | cons d t4 => simp [verify, hs]

/-- C2 (witness): `verify` on the one-segment string `"ab"` returns
`false`. -/
theorem c2_witness : verify testEnv "ab" JSKey.null none = Except.ok false :=
  c2_malformed_returns_false testEnv "ab" JSKey.null none (by decide)

/-- C3 (counterexample): `CRL.sign` copies the declared `SHA256withRSA`
identifier out of the TBS but invokes the signature engine with the literal
`'SHA1withRSA'`: with an engine that returns the algorithm name it was
called with, the stored signature is `"SHA1withRSA"`, not the signature the
declared algorithm would have produced. -/
theorem c3_counterexample :
    tbslX.asn1SignatureAlg = some algIdX ∧
    algIdX.nameAlg = "SHA256withRSA" ∧
    tbsCertListGetEncodedHex tbslX = Except.ok tbslXHex ∧
    Except.map CertState.hexSig (crlSign sigEnvX tbslX "00d1") = Except.ok (some "SHA1withRSA") ∧
    sigEnvX.sigSign algIdX.nameAlg "00d1" tbslXHex = "SHA256withRSA" ∧
    ("SHA1withRSA" : String) ≠ "SHA256withRSA" :=
  ⟨rfl, rfl, rfl, rfl, rfl, by decide⟩

/-- C3 (amended): both signing wrappers copy the signature-algorithm
identifier out of their TBS object, sign the TBS encoding, wrap the
signature as a BIT STRING with a leading `00` byte and assemble
`SEQUENCE{tbs, sigAlg, sig}` — but only `Certificate.sign` invokes the
engine with the declared algorithm; `CRL.sign` always invokes it with
`"SHA1withRSA"`. -/
theorem c3_sign_assembly (env : SigEnv) (ctbs : TBSCertificateState)
    (ltbs : TBSCertListState) (prv : String) (calgId lalgId : AlgorithmIdentifier)
    (ctbsHex ltbsHex : String)
    (hc : ctbs.asn1SignatureAlg = some calgId)
    (hce : tbsGetEncodedHex ctbs = Except.ok ctbsHex)
    (hl : ltbs.asn1SignatureAlg = some lalgId)
    (hle : tbsCertListGetEncodedHex ltbs = Except.ok ltbsHex) :
    certificateSign env ctbs prv = Except.ok
      { asn1SignatureAlg := some calgId,
        hexSig := some (env.sigSign calgId.nameAlg prv ctbsHex),
        hTLV := some (derSequenceHex [ctbsHex, calgId.encodedHex,
          derBitStringHex ("00" ++ env.sigSign calgId.nameAlg prv ctbsHex)]),
        isModified := false } ∧
    crlSign env ltbs prv = Except.ok
      { asn1SignatureAlg := some lalgId,
        hexSig := some (env.sigSign "SHA1withRSA" prv ltbsHex),
        hTLV := some (derSequenceHex [ltbsHex, lalgId.encodedHex,
          derBitStringHex ("00" ++ env.sigSign "SHA1withRSA" prv ltbsHex)]),
        isModified := false } := by
  constructor
  · simp [certificateSign, hc, hce]
  · simp [crlSign, hl, hle]

/-- C3 (witness): signing the concrete certificate TBS uses its declared
`SHA256withRSA`. -/
theorem c3_witness :
    Except.map CertState.hexSig (certificateSign sigEnvX tbsX "00d1")
      = Except.ok (some (sigEnvX.sigSign algIdX.nameAlg "00d1" tbsXHex)) := by
  rw [(c3_sign_assembly sigEnvX tbsX tbslX "00d1" algIdX algIdX tbsXHex tbslXHex
    rfl rfl rfl rfl).1]
  rfl

/-- C4 (counterexample): a fully populated `TBSCertificate` with an empty
extension list still carries the explicit-tagged `[0]` version element as
the first member of its encoded field array — the version field is not
omitted for v1-style certificates. -/
theorem c4_counterexample :
    tbsX.extensionsArray = [] ∧
    some tbsVersionHex ∈ tbsCertificateASN1Array tbsX (derSequenceHex [nbX, naX]) :=
  ⟨rfl, by decide⟩

/-- C4 (amended): `TBSCertificate.getEncodedHex` always includes the
explicit-tagged `[0]` version element (INTEGER 2, v3) as the first field,
regardless of the extension list; the extension list, when non-empty, is
appended wrapped in an explicit `[3]` (`a3`) tag, and no `[3]` element is
appended when it is empty. -/
theorem c4_version_always_included (tbs : TBSCertificateState) (sn : String)
    (alg : AlgorithmIdentifier) (iss nb na subj spk : String)
    (hsn : tbs.asn1SerialNumber = some sn)
    (halg : tbs.asn1SignatureAlg = some alg)
    (hiss : tbs.asn1Issuer = some iss)
    (hnb : tbs.asn1NotBefore = some nb)
    (hna : tbs.asn1NotAfter = some na)
    (hsubj : tbs.asn1Subject = some subj)
    (hspk : tbs.asn1SubjPKey = some spk) :
    tbsGetEncodedHex tbs = Except.ok (derSequenceHex
      ([tbsVersionHex, sn, alg.encodedHex, iss, derSequenceHex [nb, na], subj, spk] ++
       (if tbs.extensionsArray.length > 0 then
         [derTLV "a3" (derSequenceHex tbs.extensionsArray)] else []))) := by
  by_cases hext : tbs.extensionsArray.length > 0 <;>
    simp [tbsGetEncodedHex, tbsCertificateASN1Array, seqOptions,
      hsn, halg, hiss, hnb, hna, hsubj, hspk, hext]

/-- C4 (witness): the encoding of the extension-free `tbsX` contains the
version element and no `[3]` tag. -/
theorem c4_witness :
    tbsGetEncodedHex tbsX = Except.ok (derSequenceHex
      ([tbsVersionHex, "020104", algIdX.encodedHex, "3100", derSequenceHex [nbX, naX],
        "3102", "3000"] ++
       (if tbsX.extensionsArray.length > 0 then
         [derTLV "a3" (derSequenceHex tbsX.extensionsArray)] else []))) :=
  c4_version_always_included tbsX "020104" algIdX "3100" nbX naX "3102" "3000"
    rfl rfl rfl rfl rfl rfl rfl

/-- C5: for a three-segment JWT whose header and payload decode, whose
algorithm, issuer, subject and audience checks pass, whose payload carries a
numeric `exp`, whose `nbf`/`iat`/`jti` checks pass, and whose signature
verifies, `verifyJWT` returns `false` exactly when
`exp + gracePeriod < verification time` (gracePeriod defaulting to 0,
verification time being `verifyAt` when numeric, else the clock). -/
theorem c5_exp_grace_window (env : JWSEnv) (sJWT h p s : String) (hdr pl : JObj)
    (key : JSKey) (af : AcceptField) (e : Int)
    (hsplit : jsSplit '.' sJWT = [h, p, s])
    (hhdr : env.decode h = some hdr)
    (hpl : env.decode p = some pl)
    (halg : algCheck hdr af = Except.ok true)
    (hiss : issCheck pl af = Except.ok true)
    (hsub : subCheck pl af = Except.ok true)
    (haud : audCheck pl af = Except.ok true)
    (hexp : jGet pl "exp" = some (JSVal.num e))
    (hnbf : nbfCheck pl (jwtGrace af) (jwtNow env af) = true)
    (hiat : iatCheck pl (jwtGrace af) (jwtNow env af) = true)
    (hjti : jtiCheck pl af = true)
    (hsig : verify env sJWT key af.alg = Except.ok true) :
    ((verifyJWT env sJWT key af).1 = Except.ok false ↔
      e + jwtGrace af < jwtNow env af) := by
  simp only [verifyJWT, hsplit, hhdr, halg, hpl, hiss, hsub, haud]
  by_cases hlt : e + jwtGrace af < jwtNow env af
  · have hexpc : expCheck pl (jwtGrace af) (jwtNow env af) = false := by
      simp [expCheck, hexp, hlt]
    simp [hexpc, hlt]
  · have hexpc : expCheck pl (jwtGrace af) (jwtNow env af) = true := by
      simp [expCheck, hexp, hlt]
    simp [hexpc, hnbf, hiat, hjti, jwtGraceUpdate_alg, hsig, hlt]

/-- C5 (witness): the token with `exp = 90` verified at time `100` with the
default (zero) grace period returns `false`. -/
theorem c5_witness :
    (verifyJWT testEnv "H.P.S" (JSKey.str "6161") afAccept).1 = Except.ok false :=
  (c5_exp_grace_window testEnv "H.P.S" "H" "P" "S" [("alg", JSVal.str "HS256")]
    [("exp", JSVal.num 90)] (JSKey.str "6161") afAccept 90
    rfl rfl rfl rfl rfl rfl rfl rfl rfl rfl rfl rfl).mpr (by decide)

/-- C6: `getEncodedHex` on an unsigned `Certificate` (neither `sign` nor
`setSignatureHex` completed) raises `"not signed yet"`; after `sign`
completes, the state is clean and `getEncodedHex` returns the hex stored by
`sign` (so repeated calls return the same string, since the function is a
pure read of the state); any state with the dirty flag set (a mutated field)
raises again. -/
theorem c6_unsigned_raises_memoized :
    certificateGetEncodedHex certInit = Except.error "not signed yet" ∧
    (∀ (env : SigEnv) (tbs : TBSCertificateState) (prv : String) (st : CertState),
      certificateSign env tbs prv = Except.ok st →
      st.isModified = false ∧ ∃ hx, st.hTLV = some hx ∧
        certificateGetEncodedHex st = Except.ok hx) ∧
    (∀ st : CertState, st.isModified = true →
      certificateGetEncodedHex st = Except.error "not signed yet") := by
  refine ⟨rfl, ?h2, ?h3⟩
  · intro env tbs prv st hsign
    unfold certificateSign at hsign
    cases halg : tbs.asn1SignatureAlg with
    | none => rw [halg] at hsign; exact absurd hsign (by simp)
    | some algId =>
      rw [halg] at hsign
      cases henc : tbsGetEncodedHex tbs with
      | error e => rw [henc] at hsign; exact absurd hsign (by simp)
      | ok tbsHex =>
        rw [henc] at hsign
        simp only [Except.ok.injEq] at hsign
        subst hsign
        exact ⟨rfl, _, rfl, rfl⟩
  · intro st hmod
    unfold certificateGetEncodedHex
    cases st.hTLV with
    | none => rfl
    | some hx => simp [hmod]

/-- C6 (witness): a dirty state raises even with a cached encoding. -/
theorem c6_witness :
    certificateGetEncodedHex
      { asn1SignatureAlg := none, hexSig := none, hTLV := some "3000", isModified := true }
      = Except.error "not signed yet" :=
  c6_unsigned_raises_memoized.2.2 _ rfl

/-- C7 (counterexample): the oneline DN `/A=x/B=y\/C=z` — whose attribute
segments `A=x`, `B=y\` and `C=z` contain no `+`, `/` or `,` at all (so in
particular no literal unescaped one) — does not round-trip:
`ldapToOneline(onelineToLDAP(dn))` yields `/B=y,A=x/C=z`, because the
trailing backslash of `B=y\` makes the LDAP intermediate read `\,` as an
escaped comma. -/
theorem c7_counterexample :
    (∀ seg ∈ splitChar '/' ("A=x/B=y\\/C=z".data),
      '+' ∉ seg ∧ '/' ∉ seg ∧ ',' ∉ seg) ∧
    Except.map ldapToOneline (onelineToLDAP ('/' :: "A=x/B=y\\/C=z".data))
      = Except.ok ('/' :: "B=y,A=x/C=z".data) ∧
    ('/' :: "B=y,A=x/C=z".data) ≠ ('/' :: "A=x/B=y\\/C=z".data) :=
  ⟨by decide, by decide, by decide⟩

/-- C7 (amended): for every oneline DN string `'/' :: t` whose attribute
segments (the chunks of `t` between `/`) contain no `+`, `/` or `,`
characters and do not end in a backslash,
`ldapToOneline (onelineToLDAP dn) = dn`. -/
theorem c7_roundtrip_no_backslash (t : List Char)
    (hseg : ∀ seg ∈ splitChar '/' t,
      ('+' ∉ seg ∧ '/' ∉ seg ∧ ',' ∉ seg) ∧ seg.getLast? ≠ some '\\') :
    Except.map ldapToOneline (onelineToLDAP ('/' :: t)) = Except.ok ('/' :: t) := by
  have h1 : onelineToLDAP ('/' :: t)
      = Except.ok (joinChar ',' (((splitChar '/' t).reverse).map (escapeFirst ','))) := rfl
  have h2 : ((splitChar '/' t).reverse).map (escapeFirst ',')
      = (splitChar '/' t).reverse :=
    map_escapeFirst_id (by
      intro l hl
      exact (hseg l (List.mem_reverse.mp hl)).1.2.2)
  rw [h1, h2]
  show Except.ok (ldapToOneline (joinChar ',' (splitChar '/' t).reverse)) = _
  have hrev_ne : (splitChar '/' t).reverse ≠ [] := by
    simpa using splitChar_ne_nil '/' t
  have h3 : splitChar ',' (joinChar ',' (splitChar '/' t).reverse)
      = (splitChar '/' t).reverse :=
    splitChar_joinChar ',' _ (by
      intro l hl
      exact (hseg l (List.mem_reverse.mp hl)).1.2.2) hrev_ne
  have h4 : ldapLoop ((splitChar '/' t).reverse) [] false = (splitChar '/' t).reverse :=
    ldapLoop_no_bs _ [] (by
      intro i hi
      exact (hseg i (List.mem_reverse.mp hi)).2)
  have h5 : ((splitChar '/' t).reverse).map (escapeFirst '/')
      = (splitChar '/' t).reverse :=
    map_escapeFirst_id (by
      intro l hl
      exact (hseg l (List.mem_reverse.mp hl)).1.2.1)
  simp only [ldapToOneline, h3, h4, h5, List.reverse_reverse]
  rw [joinChar_splitChar '/' t]

/-- C7 (witness): a backslash-free DN round-trips. -/
theorem c7_witness :
    Except.map ldapToOneline (onelineToLDAP ('/' :: "C=US/O=aaa/CN=foo".data))
      = Except.ok ('/' :: "C=US/O=aaa/CN=foo".data) :=
  c7_roundtrip_no_backslash ("C=US/O=aaa/CN=foo".data) (by decide)

/-- C8: on a three-segment token whose decoded header has no `alg`,
`verifyJWT` returns the boolean `false` (its step 4), whereas `verify` on
the same token raises `"algorithm not specified in header"` — the two entry
points disagree on whether a missing header algorithm is a boolean
rejection or a raised error. -/
theorem c8_missing_alg_split (env : JWSEnv) (sJWT h p s : String) (hdr : JObj)
    (key key2 : JSKey) (af : AcceptField) (aa : Option JSVal)
    (hsplit : jsSplit '.' sJWT = [h, p, s])
    (hhdr : env.decode h = some hdr)
    (hnoalg : jGet hdr "alg" = none) :
    (verifyJWT env sJWT key af).1 = Except.ok false ∧
    verify env sJWT key2 aa = Except.error "algorithm not specified in header" := by
  constructor
  · have halgc : algCheck hdr af = Except.ok false := by simp [algCheck, hnoalg]
    simp [verifyJWT, hsplit, hhdr, halgc]
  · simp [verify, hsplit, hhdr, hnoalg]

/-- C8 (witness): the token `"H0.P.S"` (header `{}`) is rejected with
`false` by `verifyJWT` and with a raised error by `verify`. -/
theorem c8_witness :
    (verifyJWT testEnv "H0.P.S" (JSKey.str "6161") afAccept).1 = Except.ok false ∧
    verify testEnv "H0.P.S" (JSKey.str "6161") none
      = Except.error "algorithm not specified in header" :=
  c8_missing_alg_split testEnv "H0.P.S" "H0" "P" "S" [] (JSKey.str "6161")
    (JSKey.str "6161") afAccept none rfl rfl rfl

/-- C9: when each of `exp`, `nbf` and `iat` is absent or carries a
non-numeric value (and `exp` is actually present, carried by `ev`), the
time checks of `verifyJWT` are all skipped — the token passes time
validation whatever the environment clock, `verifyAt` and `gracePeriod`
are (all of which are universally quantified here) — and with the other
checks and the signature passing, `verifyJWT` returns `true`. -/
theorem c9_nonnumeric_time_skipped (env : JWSEnv) (sJWT h p s : String) (hdr pl : JObj)
    (key : JSKey) (af : AcceptField) (ev : JSVal)
    (hsplit : jsSplit '.' sJWT = [h, p, s])
    (hhdr : env.decode h = some hdr)
    (hpl : env.decode p = some pl)
    (halg : algCheck hdr af = Except.ok true)
    (hiss : issCheck pl af = Except.ok true)
    (hsub : subCheck pl af = Except.ok true)
    (haud : audCheck pl af = Except.ok true)
    (hexppres : jGet pl "exp" = some ev)
    (hexpnum : ∀ m : Int, ev ≠ JSVal.num m)
    (hnbfnn : ∀ v, jGet pl "nbf" = some v → ∀ m : Int, v ≠ JSVal.num m)
    (hiatnn : ∀ v, jGet pl "iat" = some v → ∀ m : Int, v ≠ JSVal.num m)
    (hjti : jtiCheck pl af = true)
    (hsig : verify env sJWT key af.alg = Except.ok true) :
    (verifyJWT env sJWT key af).1 = Except.ok true := by
  have hexpc : expCheck pl (jwtGrace af) (jwtNow env af) = true := by
    unfold expCheck
    exact skip_time_check pl "exp" _ _ (by
      intro v hv m
      rw [hexppres] at hv
      cases hv
      exact hexpnum m)
  have hnbfc : nbfCheck pl (jwtGrace af) (jwtNow env af) = true := by
    unfold nbfCheck
    cases hk : jGet pl "nbf" with
    | none => rfl
    | some v => cases v with
      | num m => exact absurd rfl (hnbfnn _ hk m)
      | null => rfl
      | bool b => rfl
      | str s2 => rfl
      | arr l => rfl
  have hiatc : iatCheck pl (jwtGrace af) (jwtNow env af) = true := by
    unfold iatCheck
    cases hk : jGet pl "iat" with
    | none => rfl
    | some v => cases v with
      | num m => exact absurd rfl (hiatnn _ hk m)
      | null => rfl
      | bool b => rfl
      | str s2 => rfl
      | arr l => rfl
  simp only [verifyJWT, hsplit, hhdr, halg, hpl, hiss, hsub, haud]
  simp [hexpc, hnbfc, hiatc, hjti, jwtGraceUpdate_alg, hsig]

/-- C9 (witness): the token `"H.P9.S"` carries `exp`, `nbf` and `iat` as
strings and passes. -/
theorem c9_witness :
    (verifyJWT testEnv "H.P9.S" (JSKey.str "6161") afAccept).1 = Except.ok true :=
  c9_nonnumeric_time_skipped testEnv "H.P9.S" "H" "P9" "S" [("alg", JSVal.str "HS256")]
    [("exp", JSVal.str "90"), ("nbf", JSVal.str "x"), ("iat", JSVal.str "y")]
    (JSKey.str "6161") afAccept (JSVal.str "90")
    rfl rfl rfl rfl rfl rfl rfl rfl
    (by intro m hm; simp at hm)
    (by
      intro v hv m
      have hveq : JSVal.str "x" = v :=
        Option.some.inj (hv : some (JSVal.str "x") = some v)
      rw [← hveq]
      simp)
    (by
      intro v hv m
      have hveq : JSVal.str "y" = v :=
        Option.some.inj (hv : some (JSVal.str "y") = some v)
      rw [← hveq]
      simp)
    rfl rfl

/-- C10 (counterexample): a call that returns `false` at the header-`alg`
check (step 4) never reaches the `gracePeriod` write: with `gracePeriod`
absent on entry, it is still absent after the call — the dictionary is not
updated on every call. -/
theorem c10_counterexample :
    afEmpty.gracePeriod = none ∧
    (verifyJWT testEnv "H0.P.S" (JSKey.str "6161") afEmpty).1 = Except.ok false ∧
    (verifyJWT testEnv "H0.P.S" (JSKey.str "6161") afEmpty).2.gracePeriod = none :=
  ⟨rfl, rfl, rfl⟩

/-- C10 (amended): whenever `acceptField.gracePeriod` is absent or not a
number AND execution reaches the time-validity step (the header-algorithm,
issuer, subject and audience checks all pass on decoded header and
payload), `verifyJWT` writes the number 0 into the caller's
`acceptField.gracePeriod`; moreover, on every call whatsoever the final
dictionary is either unchanged or differs from the input exactly in
`gracePeriod` being set to 0 — no other entry is ever modified. -/
theorem c10_grace_write_amended (env : JWSEnv) (sJWT h p s : String) (hdr pl : JObj)
    (key : JSKey) (af : AcceptField)
    (hsplit : jsSplit '.' sJWT = [h, p, s])
    (hhdr : env.decode h = some hdr)
    (hpl : env.decode p = some pl)
    (halg : algCheck hdr af = Except.ok true)
    (hiss : issCheck pl af = Except.ok true)
    (hsub : subCheck pl af = Except.ok true)
    (haud : audCheck pl af = Except.ok true)
    (hgrace : ∀ m : Int, af.gracePeriod ≠ some (JSVal.num m)) :
    (verifyJWT env sJWT key af).2 = { af with gracePeriod := some (JSVal.num 0) } ∧
    (∀ (env2 : JWSEnv) (t2 : String) (k2 : JSKey) (af2 : AcceptField),
      (verifyJWT env2 t2 k2 af2).2 = af2 ∨
      (verifyJWT env2 t2 k2 af2).2 = { af2 with gracePeriod := some (JSVal.num 0) }) := by
  constructor
  · have hupd : jwtGraceUpdate af = { af with gracePeriod := some (JSVal.num 0) } := by
      unfold jwtGraceUpdate
      cases hg : af.gracePeriod with
      | none => rfl
      | some v => cases v with
        | num m => exact absurd hg (hgrace m)
        | null => rfl
        | bool b => rfl
        | str s2 => rfl
        | arr l => rfl
    simp only [verifyJWT, hsplit, hhdr, halg, hpl, hiss, hsub, haud]
    split_ifs
    · simp [hupd]
    · simp [hupd]
    · simp [hupd]
    · simp [hupd]
    · rcases hv2 : verify env sJWT key af.alg with e2 | b
      · simp [hupd, hv2]
      · cases b <;> simp [hupd, hv2]
  · exact verifyJWT_acceptField_cases

/-- C10 (witness): the accepted `HS256` token reaches the time step, so the
absent `gracePeriod` is written to 0. -/
theorem c10_witness :
    (verifyJWT testEnv "H.P.S" (JSKey.str "6161") afAccept).2
      = { afAccept with gracePeriod := some (JSVal.num 0) } :=
  (c10_grace_write_amended testEnv "H.P.S" "H" "P" "S" [("alg", JSVal.str "HS256")]
    [("exp", JSVal.num 90)] (JSKey.str "6161") afAccept
    rfl rfl rfl rfl rfl rfl rfl (by intro m hm; exact Option.noConfusion hm)).1
